import Mathlib

/-!
# servicecreator: the Deployment to Service control loop

A shallow embedding of `controller/controller.go`: the three informer callbacks
(`handleAdd`, `handleUpdate`, `handleDelete`), the worker loop (`worker`, `process`)
and `createService`, together with models of the collaborators they call: Go maps
and pointers, `time.Time.Sub`, `strconv.Atoi`, the client-go work queue and the
Service client of the cluster API.
-/

set_option autoImplicit false

namespace ServiceCreator

/-! ## Go runtime values -/

/-- Run-time panics that the controller code can raise. -/
inductive GoPanic where
  /-- a field is read through a nil pointer -/
  | nilPointerDereference
  /-- an entry is assigned in a nil map -/
  | nilMapAssignment
  /-- a single-value type assertion `x.(T)` is applied to a value that is not a `T` -/
  | interfaceConversion
  deriving DecidableEq, Repr

/-- How a call ends: it returns a value, it panics, or it waits forever on the queue. -/
inductive Outcome (α : Type) where
  | ret (a : α)
  | panicked (p : GoPanic)
  | blocked
  deriving DecidableEq, Repr

/-- A Go `map[string]string`: `none` is the nil map, `some l` a map holding the entries
of `l` (the first entry for a key is the one that counts). -/
abbrev GoMap := Option (List (String × String))

/-- The comma-ok read `v, ok := m[k]`: on a nil map or a missing key it gives `("", false)`. -/
def GoMap.get (m : GoMap) (k : String) : String × Bool :=
  match m with
  | none => ("", false)
  | some l =>
    match l.lookup k with
    | none => ("", false)
    | some v => (v, true)

/-- The assignment `m[k] = v`: panics on a nil map, otherwise sets the entry for `k`. -/
def GoMap.set (m : GoMap) (k v : String) : Outcome GoMap :=
  match m with
  | none => .panicked .nilMapAssignment
  | some l => .ret (some ((k, v) :: l.filter (fun e => decide (e.1 ≠ k))))

/-- An instant, in nanoseconds since the Unix epoch; `UTC()` only changes the location
attached to an instant, so it is the identity here. -/
abbrev Time := Int

/-- Largest `time.Duration` (an int64 count of nanoseconds). -/
def maxDuration : Int := 2 ^ 63 - 1

/-- Smallest `time.Duration`. -/
def minDuration : Int := -(2 ^ 63)

/-- The Go method `t.Sub(u)`: the duration `t - u`, saturated to the int64 range. -/
def Time.Sub (t u : Time) : Int :=
  if t - u > maxDuration then maxDuration
  else if t - u < minDuration then minDuration
  else t - u

/-- Width of the platform `int` (a 64-bit build). -/
def intSize : Nat := 64

/-- Value of a string of ASCII digits; `none` when a character is not a digit. -/
def digitsValue : List Char → Nat → Option Nat
  | [], acc => some acc
  | c :: cs, acc =>
    if '0' ≤ c ∧ c ≤ '9' then digitsValue cs (acc * 10 + (c.toNat - '0'.toNat)) else none

/-- The Go function `strconv.Atoi`: an optional sign, then one or more decimal digits, and the
value must fit the platform `int`; `none` stands for the returned error. -/
def Atoi (s : String) : Option Int :=
  let body (neg : Bool) (ds : List Char) : Option Int :=
    match ds with
    | [] => none
    | _ :: _ =>
      match digitsValue ds 0 with
      | none => none
      | some un =>
        if neg then (if un > 2 ^ (intSize - 1) then none else some (-(un : Int)))
        else (if un ≥ 2 ^ (intSize - 1) then none else some (un : Int))
  match s.toList with
  | [] => none
  | c :: cs =>
    if c = '-' then body true cs
    else if c = '+' then body false cs
    else body false (c :: cs)

/-- The Go conversion `int32(n)`: the low 32 bits of `n`, read as a signed number. -/
def toInt32 (n : Int) : Int := (n + 2 ^ 31) % 2 ^ 32 - 2 ^ 31

/-! ## Kubernetes objects -/

/-- The fields of `appsv1.Deployment` that the controller reads. -/
structure Deployment where
  Name : String
  Namespace : String
  ResourceVersion : String
  CreationTimestamp : Time
  Labels : GoMap
  Annotations : GoMap
  /-- the pod template labels, `Spec.Template.Labels` -/
  TemplateLabels : GoMap
  deriving DecidableEq, Repr

/-- The method `DeepCopy`: a fresh object with the same contents. -/
def Deployment.DeepCopy (d : Deployment) : Deployment := d

/-- An `interface{}` handed to an informer callback: a non-nil `*Deployment`, or an object of
another type (for instance a `cache.DeletedFinalStateUnknown` tombstone). -/
inductive Obj where
  | deployment (d : Deployment)
  | other (kind : String)
  deriving DecidableEq, Repr

/-- The comma-ok assertion `d, ok := x.(*appsv1.Deployment)`; a failed assertion gives the nil
pointer (`none`) and `false`. -/
def Obj.asDeployment : Obj → Option Deployment × Bool
  | .deployment d => (some d, true)
  | .other _ => (none, false)

/-- One entry of `corev1.ServiceSpec.Ports`. -/
structure ServicePort where
  Name : String
  Port : Int
  deriving DecidableEq, Repr

/-- The fields of `corev1.Service` that the controller fills in. -/
structure Service where
  Name : String
  Namespace : String
  Labels : GoMap
  Selector : GoMap
  Ports : List ServicePort
  deriving DecidableEq, Repr

/-- Errors of the Service client, by the reason `apierrors` tells apart. -/
inductive ApiError where
  | alreadyExists
  | notFound
  | other (msg : String)
  deriving DecidableEq, Repr

/-- The predicate `apierrors.IsAlreadyExists`. -/
def IsAlreadyExists : ApiError → Bool
  | .alreadyExists => true
  | _ => false

/-- An `error` value seen by `process`: a failed `strconv.Atoi`, or a client error. -/
inductive GoError where
  | atoi (input : String)
  | api (e : ApiError)
  deriving DecidableEq, Repr

/-- The namespaced Service client `client.CoreV1().Services(ns)` over a cluster state `σ`:
each call answers with an error or none and leaves a new cluster state. -/
structure ServiceAPI (σ : Type) where
  Create : σ → String → Service → Option ApiError × σ
  Update : σ → String → Service → Option ApiError × σ
  Delete : σ → String → String → Option ApiError × σ

/-- A call made on the Service client. -/
inductive ApiCall where
  | create (ns : String) (svc : Service)
  | update (ns : String) (svc : Service)
  | delete (ns : String) (name : String)
  deriving DecidableEq, Repr

/-- The lines the controller writes with `log.Printf`, one constructor per call site. -/
inductive LogLine where
  | addConvertError
  | addSkipUnannotated (name : String)
  | updateConvertError
  | updateSkipPresent (name : String)
  | updateSkipUnannotated (name : String)
  | deleteConvertError
  | deleteSkipNotCreated (name : String)
  | cacheClosed
  | deleting (name : String)
  | deleteError (name : String) (err : GoError)
  | creating (name : String)
  | processError (name : String) (err : GoError)
  | updating (name : String)
  | updateError (name : String) (err : GoError)
  | createError (name : String) (err : GoError)
  deriving DecidableEq, Repr

/-! ## The work queue -/

/-- A call made on the work queue. -/
inductive QueueCall where
  | add (item : Deployment)
  | get
  | done (item : Deployment)
  | forget (item : Deployment)
  | addRateLimited (item : Deployment)
  deriving DecidableEq, Repr

/-- The client-go rate limiting work queue, as far as the controller uses it: the FIFO
`queue`, the `dirty` set of items waiting to be processed, the `processing` set of items handed
out by `Get` and not yet released by `Done`, the shutdown flag, the requeue counts kept by the
rate limiter, and the calls received so far (oldest first). Items are compared by value. -/
structure WorkQueue where
  queue : List Deployment
  dirty : List Deployment
  processing : List Deployment
  shuttingDown : Bool
  failures : List (Deployment × Nat)
  calls : List QueueCall
  deriving DecidableEq, Repr

/-- The queue method `Add`: ignored when shutting down or when the item is already dirty; an item
being processed is only marked dirty; otherwise the item is appended to the queue. -/
def WorkQueue.Add (q : WorkQueue) (item : Deployment) : WorkQueue :=
  let q := { q with calls := q.calls ++ [.add item] }
  if q.shuttingDown then q
  else if item ∈ q.dirty then q
  else if item ∈ q.processing then { q with dirty := item :: q.dirty }
  else { q with dirty := item :: q.dirty, queue := q.queue ++ [item] }

/-- The queue method `Get`: waits while the queue is empty and not shutting down; on an empty
queue that is shutting down it returns the nil item and `true`; otherwise it hands out the head
of the queue, moving it from the dirty set to the processing set. -/
def WorkQueue.Get (q : WorkQueue) : Outcome (Option Deployment × Bool × WorkQueue) :=
  match q.queue with
  | [] =>
    if q.shuttingDown then .ret (none, true, { q with calls := q.calls ++ [.get] })
    else .blocked
  | item :: rest =>
    .ret (some item, false,
      { q with
        queue := rest
        processing := if item ∈ q.processing then q.processing else item :: q.processing
        dirty := q.dirty.filter (fun d => decide (d ≠ item))
        calls := q.calls ++ [.get] })

/-- The queue method `Forget`: the rate limiter stops tracking the item; the queue, the dirty set
and the processing set are not touched. -/
def WorkQueue.Forget (q : WorkQueue) (item : Deployment) : WorkQueue :=
  { q with
    failures := q.failures.filter (fun e => decide (e.1 ≠ item))
    calls := q.calls ++ [.forget item] }

/-! ## The controller -/

/-- The annotation key that asks for a Service. -/
def serviceKey : String := "infracloud.io/service"

/-- The controller: the state of the cluster behind `client`, the work queue and the start
time, with the calls made on the client and the lines logged so far (oldest first). -/
structure Controller (σ : Type) where
  client : σ
  wq : WorkQueue
  timeStarted : Time
  apiCalls : List ApiCall
  logged : List LogLine

/-- One `log.Printf` call. -/
def Controller.log {σ : Type} (cont : Controller σ) (l : LogLine) : Controller σ :=
  { cont with logged := cont.logged ++ [l] }

/-- Sequencing of calls: a panic or a blocked call ends the caller. -/
def Outcome.bind {α β : Type} (x : Outcome α) (f : α → Outcome β) : Outcome β :=
  match x with
  | .ret a => f a
  | .panicked p => .panicked p
  | .blocked => .blocked

instance : Monad Outcome where
  pure := Outcome.ret
  bind := Outcome.bind

/-- Reading a field through a `*Deployment`; `none` is the nil pointer. -/
def deref (p : Option Deployment) : Outcome Deployment :=
  match p with
  | none => .panicked .nilPointerDereference
  | some d => .ret d

/-- The method `checkAnnotation`: the value of the annotation `serviceKey` and whether it is set. -/
def checkAnnotation (deploy : Option Deployment) : Outcome (String × Bool) := do
  let d ← deref deploy
  return d.Annotations.get serviceKey

/-- The callback `handleAdd`. -/
def handleAdd {σ : Type} (cont : Controller σ) (new : Obj) : Outcome (Controller σ) := do
  let (deploy, ok) := new.asDeployment
  let cont := if !ok then cont.log .addConvertError else cont
  let (_, ok) ← checkAnnotation deploy
  let d ← deref deploy
  if Time.Sub cont.timeStarted d.CreationTimestamp > 0 then
    return cont
  else if !ok then
    return cont.log (.addSkipUnannotated d.Name)
  else
    return { cont with wq := cont.wq.Add d }

/-- The callback `handleUpdate`. -/
def handleUpdate {σ : Type} (cont : Controller σ) (old new : Obj) : Outcome (Controller σ) := do
  let (oldDeploy, ok1) := old.asDeployment
  let (newDeploy, ok2) := new.asDeployment
  let cont := if !ok1 || !ok2 then cont.log .updateConvertError else cont
  let (val1, ok1) ← checkAnnotation oldDeploy
  let (val2, ok2) ← checkAnnotation newDeploy
  let o ← deref oldDeploy
  let n ← deref newDeploy
  if o.ResourceVersion = n.ResourceVersion then
    return cont
  else if ok1 && ok2 && decide (val1 = val2) then
    return cont.log (.updateSkipPresent o.Name)
  else if ok1 && !ok2 then
    let n := n.DeepCopy
    let annotations ← n.Annotations.set serviceKey "delete"
    let n := { n with Annotations := annotations }
    return { cont with wq := cont.wq.Add n }
  else if !ok2 then
    return cont.log (.updateSkipUnannotated n.Name)
  else
    return { cont with wq := cont.wq.Add n }

/-- The callback `handleDelete`. -/
def handleDelete {σ : Type} (cont : Controller σ) (old : Obj) : Outcome (Controller σ) := do
  let (deploy, ok) := old.asDeployment
  let cont := if !ok then cont.log .deleteConvertError else cont
  let (_, ok) ← checkAnnotation deploy
  let d ← deref deploy
  if !ok then
    return cont.log (.deleteSkipNotCreated d.Name)
  else
    let d := d.DeepCopy
    let annotations ← d.Annotations.set serviceKey "delete"
    let d := { d with Annotations := annotations }
    return { cont with wq := cont.wq.Add d }

/-- The Service literal that `createService` builds for a Deployment and a decoded port. -/
def buildService (deploy : Deployment) (intPort : Int) : Service :=
  { Name := deploy.Name
    Namespace := deploy.Namespace
    Labels := deploy.Labels
    Selector := deploy.TemplateLabels
    Ports := [{ Name := "http", Port := toInt32 intPort }] }

/-- The method `createService`: decode the port, create the Service and, when it already
exists, update it. The first component is the returned `error` (`none` for nil). -/
def createService {σ : Type} (api : ServiceAPI σ) (cont : Controller σ)
    (deploy : Option Deployment) : Outcome (Option GoError × Controller σ) := do
  let (port, _) ← checkAnnotation deploy
  match Atoi port with
  | none => return (some (.atoi port), cont)
  | some intPort =>
    let d ← deref deploy
    let svc := buildService d intPort
    let (err, st) := api.Create cont.client d.Namespace svc
    let cont := { cont with client := st, apiCalls := cont.apiCalls ++ [.create d.Namespace svc] }
    match err with
    | none => return (none, cont)
    | some e =>
      if IsAlreadyExists e then
        let cont := cont.log (.updating d.Name)
        let (err, st) := api.Update cont.client d.Namespace svc
        let cont :=
          { cont with client := st, apiCalls := cont.apiCalls ++ [.update d.Namespace svc] }
        match err with
        | some e => return (some (.api e), cont.log (.updateError d.Name (.api e)))
        | none => return (none, cont)
      else
        return (some (.api e), cont.log (.createError d.Name (.api e)))

/-- The method `process`: take one item from the queue and apply it. The deferred `Forget` runs
on every return that follows its registration. -/
def process {σ : Type} (api : ServiceAPI σ) (cont : Controller σ) :
    Outcome (Bool × Controller σ) := do
  let (item, shutDown, wq) ← cont.wq.Get
  let cont := { cont with wq := wq }
  let deploy ← (match item with
    | none => Outcome.panicked .interfaceConversion
    | some d => Outcome.ret d)
  if shutDown then
    return (false, cont.log .cacheClosed)
  else
    let (res, cont) ← (do
      if deploy.Namespace = "kube-system" ∨ deploy.Namespace = "local-path-storage" then
        return (true, cont)
      else
        let (val, _) ← checkAnnotation (some deploy)
        if val = "delete" then
          let cont := cont.log (.deleting deploy.Name)
          let (err, st) := api.Delete cont.client deploy.Namespace deploy.Name
          let cont :=
            { cont with
              client := st
              apiCalls := cont.apiCalls ++ [.delete deploy.Namespace deploy.Name] }
          match err with
          | some e => return (false, cont.log (.deleteError deploy.Name (.api e)))
          | none => return (true, cont)
        else
          let cont := cont.log (.creating deploy.Name)
          let (err, cont) ← createService api cont (some deploy)
          match err with
          | some e => return (false, cont.log (.processError deploy.Name e))
          | none => return (true, cont))
    return (res, { cont with wq := cont.wq.Forget deploy })

/-- The method `worker`: call `process` until it returns false. `fuel` bounds the number of
iterations; `none` means the bound was reached. -/
def worker {σ : Type} (api : ServiceAPI σ) : Nat → Controller σ → Option (Outcome (Controller σ))
  | 0, _ => none
  | fuel + 1, cont =>
    match process api cont with
    | .ret (true, cont) => worker api fuel cont
    | .ret (false, cont) => some (.ret cont)
    | .panicked p => some (.panicked p)
    | .blocked => some .blocked

/-! ## A Service store as the cluster -/

/-- A Service store keyed by (namespace, name). -/
abbrev Store := String → String → Option Service

/-- The empty store. -/
def Store.empty : Store := fun _ _ => none

/-- The store with the entry at (ns, name) replaced. -/
def Store.put (s : Store) (ns name : String) (v : Option Service) : Store :=
  fun a b => if a = ns ∧ b = name then v else s a b

/-- The Service client over a store: `Create` fails with already-exists when the key is present,
`Update` replaces the stored object, `Delete` removes it; `Update` and `Delete` of a missing
key fail with not-found. -/
def storeAPI : ServiceAPI Store where
  Create s ns svc :=
    match s ns svc.Name with
    | some _ => (some .alreadyExists, s)
    | none => (none, s.put ns svc.Name (some svc))
  Update s ns svc :=
    match s ns svc.Name with
    | some _ => (none, s.put ns svc.Name (some svc))
    | none => (some .notFound, s)
  Delete s ns name :=
    match s ns name with
    | some _ => (none, s.put ns name none)
    | none => (some .notFound, s)

/-! ## Concrete objects -/

/-- A queue that has received no call. -/
def emptyQueue : WorkQueue :=
  { queue := [], dirty := [], processing := [], shuttingDown := false, failures := [],
    calls := [] }

/-- A controller started at instant 50 over an empty cluster. -/
def startController : Controller Store :=
  { client := Store.empty, wq := emptyQueue, timeStarted := 50, apiCalls := [], logged := [] }

/-- The controller of `startController` with `items` waiting in its queue. -/
def withQueue (items : List Deployment) : Controller Store :=
  { startController with wq := { emptyQueue with queue := items, dirty := items } }

/-- The Deployment default/web, created after the controller started, asking for port 8080. -/
def web : Deployment :=
  { Name := "web", Namespace := "default", ResourceVersion := "1", CreationTimestamp := 100,
    Labels := some [("app", "web")], Annotations := some [(serviceKey, "8080")],
    TemplateLabels := some [("run", "web")] }

/-- The next version of `web`, with no annotation map at all. -/
def webNoAnnotations : Deployment :=
  { web with ResourceVersion := "2", Annotations := none }

/-- The next version of `web`, with an empty annotation map. -/
def webEmptyAnnotations : Deployment :=
  { web with ResourceVersion := "2", Annotations := some [] }

/-- The copy of `web` that the Delete branches enqueue. -/
def webDeleteMarked : Deployment :=
  { web with Annotations := some [(serviceKey, "delete")] }

/-- A second Deployment, default/api, asking for port 9090. -/
def apiDeployment : Deployment :=
  { web with Name := "api", Annotations := some [(serviceKey, "9090")] }

/-- The next version of `web`, asking for port 9090. -/
def webPort9090 : Deployment :=
  { web with ResourceVersion := "2", Annotations := some [(serviceKey, "9090")] }

/-- A Deployment whose own annotation value is the word delete. -/
def webAnnotatedDelete : Deployment :=
  { web with Annotations := some [(serviceKey, "delete")], ResourceVersion := "7" }

/-- The next version of `web`, asking for a port beyond the signed 32-bit range. -/
def webHugePort : Deployment :=
  { web with ResourceVersion := "2", Annotations := some [(serviceKey, "4294967376")] }

/-- A Deployment of the namespace kube-system asking for port 8080, and its next version asking
for port 9090. -/
def systemOld : Deployment :=
  { web with Name := "dns", Namespace := "kube-system" }

/-- The next version of `systemOld`. -/
def systemNew : Deployment :=
  { systemOld with ResourceVersion := "2", Annotations := some [(serviceKey, "9090")] }

/-- A version of `web` created before the controller of `startController` started. -/
def webCreatedEarlier : Deployment :=
  { web with CreationTimestamp := 10 }

/-- The next version of `web` with the same annotation value and other labels, pod template
labels and further annotations. -/
def webRelabelled : Deployment :=
  { web with
    ResourceVersion := "2"
    Labels := some [("app", "shop")]
    TemplateLabels := none
    Annotations := some [("team", "blue"), (serviceKey, "8080")] }

/-- A version of `web` whose annotation value is no number. -/
def webBadPort : Deployment :=
  { web with Annotations := some [(serviceKey, "http")] }

/-- The controller of `startController` after its queue was shut down with nothing waiting. -/
def shutDownController : Controller Store :=
  { startController with wq := { emptyQueue with shuttingDown := true } }

/-- The controller of `startController` over a cluster that already holds the Service of `web`
with port 8080. -/
def runningController : Controller Store :=
  { startController with
    client := Store.empty.put "default" "web" (some (buildService web 8080)) }

/-! ## Deployment objects by address -/

/-- The Deployment objects in memory: a `*Deployment` is `some a`, an index into this list, or
`none` for nil. -/
abbrev Heap := List Deployment

/-- Reading the object behind a pointer. -/
def Heap.read (h : Heap) (p : Option Nat) : Outcome Deployment :=
  match p with
  | none => .panicked .nilPointerDereference
  | some a =>
    match h[a]? with
    | none => .panicked .nilPointerDereference
    | some d => .ret d

/-- The call `p.DeepCopy()` on a pointer: a new object with the contents of the object at `p`,
at a fresh address. -/
def Heap.DeepCopy (h : Heap) (p : Option Nat) : Outcome (Option Nat × Heap) := do
  let d ← h.read p
  return (some h.length, h ++ [d.DeepCopy])

/-- The assignment `p.Annotations[k] = v` through a pointer: the object at `p` gets the new
map entry, every other object stays as it is. -/
def Heap.assignAnnotation (h : Heap) (p : Option Nat) (k v : String) : Outcome Heap := do
  let d ← h.read p
  let annotations ← d.Annotations.set k v
  match p with
  | none => .panicked .nilPointerDereference
  | some a => return h.set a { d with Annotations := annotations }

/-- The callback `handleDelete` on a `*Deployment` given by address: the same steps as
`handleDelete`, with the copy and the assignment made in the heap; the item added to the queue
is the object that `deploy` points to at the call of `Add`. -/
def handleDeleteAt {σ : Type} (cont : Controller σ) (heap : Heap) (old : Option Nat) :
    Outcome (Controller σ × Heap) := do
  let deploy := old
  let d ← heap.read deploy
  let (_, ok) := d.Annotations.get serviceKey
  if !ok then
    return (cont.log (.deleteSkipNotCreated d.Name), heap)
  else
    let (deploy, heap) ← heap.DeepCopy deploy
    let heap ← heap.assignAnnotation deploy serviceKey "delete"
    let item ← heap.read deploy
    return ({ cont with wq := cont.wq.Add item }, heap)

/-! ## The queue state that `process` leaves -/

/-- The queue after `Get` has handed out `item`, leaving `rest`, and the deferred `Forget item`
has run. -/
def WorkQueue.served (q : WorkQueue) (item : Deployment) (rest : List Deployment) : WorkQueue :=
  { queue := rest
    dirty := q.dirty.filter (fun d => decide (d ≠ item))
    processing := if item ∈ q.processing then q.processing else item :: q.processing
    shuttingDown := q.shuttingDown
    failures := q.failures.filter (fun e => decide (e.1 ≠ item))
    calls := q.calls ++ [.get, .forget item] }

/-- The namespaces that `process` skips. -/
def excludedNamespace (ns : String) : Prop := ns = "kube-system" ∨ ns = "local-path-storage"

instance (ns : String) : Decidable (excludedNamespace ns) := by
  unfold excludedNamespace
  infer_instance

/-- The cluster-API call that `process` makes for `d` in the cluster state `st` fails with an
error other than already-exists on Create: the Delete fails, or the Create fails and, when its
error is already-exists, the Update that follows fails too. -/
def apiCallFails {σ : Type} (api : ServiceAPI σ) (st : σ) (d : Deployment) : Prop :=
  if (d.Annotations.get serviceKey).1 = "delete" then
    (api.Delete st d.Namespace d.Name).1 ≠ none
  else
    ∃ n e, Atoi (d.Annotations.get serviceKey).1 = some n ∧
      (api.Create st d.Namespace (buildService d n)).1 = some e ∧
      (IsAlreadyExists e = true →
        (api.Update (api.Create st d.Namespace (buildService d n)).2 d.Namespace
          (buildService d n)).1 ≠ none)

/-! ## Basic facts -/

theorem Atoi_delete : Atoi "delete" = none := by decide

theorem ne_delete_of_Atoi {v : String} {n : Int} (h : Atoi v = some n) : v ≠ "delete" := by
  intro hv
  rw [hv, Atoi_delete] at h
  exact Option.noConfusion h

theorem GoMap.get_cons_self (k v : String) (l : List (String × String)) :
    GoMap.get (some ((k, v) :: l)) k = (v, true) := by
  simp [GoMap.get, List.lookup]

theorem GoMap.some_of_get {m : GoMap} {k : String} (h : (GoMap.get m k).2 = true) :
    ∃ l, m = some l := by
  cases m with
  | none => simp [GoMap.get] at h
  | some l => exact ⟨l, rfl⟩

theorem mem_processing_insert (item : Deployment) (p : List Deployment) :
    item ∈ (if item ∈ p then p else item :: p) := by
  split_ifs with h
  · exact h
  · exact List.mem_cons_self _ _

theorem toInt32_of_range {n : Int} (h1 : -(2 ^ 31) ≤ n) (h2 : n < 2 ^ 31) : toInt32 n = n := by
  unfold toInt32
  omega

theorem toInt32_range (n : Int) : -(2 ^ 31) ≤ toInt32 n ∧ toInt32 n < 2 ^ 31 := by
  unfold toInt32
  omega

/-! ## What `process` does with a dequeued item, branch by branch -/

theorem process_excluded {σ : Type} (api : ServiceAPI σ) (cont : Controller σ)
    (item : Deployment) (rest : List Deployment) (hq : cont.wq.queue = item :: rest)
    (hex : excludedNamespace item.Namespace) :
    process api cont = .ret (true, { cont with wq := cont.wq.served item rest }) := by
  unfold excludedNamespace at hex
  simp [process, WorkQueue.Get, hq, bind, Outcome.bind, pure, hex, WorkQueue.Forget,
    WorkQueue.served]

theorem process_delete {σ : Type} (api : ServiceAPI σ) (cont : Controller σ)
    (item : Deployment) (rest : List Deployment) (hq : cont.wq.queue = item :: rest)
    (hex : ¬ excludedNamespace item.Namespace)
    (hdel : (item.Annotations.get serviceKey).1 = "delete") :
    ∃ lg, process api cont = .ret
      (decide ((api.Delete cont.client item.Namespace item.Name).1 = none),
        { client := (api.Delete cont.client item.Namespace item.Name).2
          wq := cont.wq.served item rest
          timeStarted := cont.timeStarted
          apiCalls := cont.apiCalls ++ [.delete item.Namespace item.Name]
          logged := lg }) := by
  unfold excludedNamespace at hex
  rcases hD : api.Delete cont.client item.Namespace item.Name with ⟨e, st⟩
  cases e <;>
  simp [process, WorkQueue.Get, hq, bind, Outcome.bind, pure, hex, WorkQueue.Forget,
    WorkQueue.served, checkAnnotation, deref, hdel, Controller.log, hD]

theorem process_parse_failure {σ : Type} (api : ServiceAPI σ) (cont : Controller σ)
    (item : Deployment) (rest : List Deployment) (hq : cont.wq.queue = item :: rest)
    (hex : ¬ excludedNamespace item.Namespace)
    (hdel : (item.Annotations.get serviceKey).1 ≠ "delete")
    (hA : Atoi (item.Annotations.get serviceKey).1 = none) :
    ∃ lg, process api cont = .ret
      (false, { cont with wq := cont.wq.served item rest, logged := lg }) := by
  unfold excludedNamespace at hex
  simp [process, WorkQueue.Get, hq, bind, Outcome.bind, pure, hex, WorkQueue.Forget,
    WorkQueue.served, checkAnnotation, deref, hdel, Controller.log, createService, hA]

theorem process_created {σ : Type} (api : ServiceAPI σ) (cont : Controller σ)
    (item : Deployment) (rest : List Deployment) (n : Int) (st : σ)
    (hq : cont.wq.queue = item :: rest) (hex : ¬ excludedNamespace item.Namespace)
    (hA : Atoi (item.Annotations.get serviceKey).1 = some n)
    (hC : api.Create cont.client item.Namespace (buildService item n) = (none, st)) :
    ∃ lg, process api cont = .ret
      (true,
        { client := st
          wq := cont.wq.served item rest
          timeStarted := cont.timeStarted
          apiCalls := cont.apiCalls ++ [.create item.Namespace (buildService item n)]
          logged := lg }) := by
  unfold excludedNamespace at hex
  have hdel := ne_delete_of_Atoi hA
  simp [process, WorkQueue.Get, hq, bind, Outcome.bind, pure, hex, WorkQueue.Forget,
    WorkQueue.served, checkAnnotation, deref, hdel, Controller.log, createService, hA, hC]

theorem process_create_failed {σ : Type} (api : ServiceAPI σ) (cont : Controller σ)
    (item : Deployment) (rest : List Deployment) (n : Int) (e : ApiError) (st : σ)
    (hq : cont.wq.queue = item :: rest) (hex : ¬ excludedNamespace item.Namespace)
    (hA : Atoi (item.Annotations.get serviceKey).1 = some n)
    (hC : api.Create cont.client item.Namespace (buildService item n) = (some e, st))
    (hI : IsAlreadyExists e = false) :
    ∃ lg, process api cont = .ret
      (false,
        { client := st
          wq := cont.wq.served item rest
          timeStarted := cont.timeStarted
          apiCalls := cont.apiCalls ++ [.create item.Namespace (buildService item n)]
          logged := lg }) := by
  unfold excludedNamespace at hex
  have hdel := ne_delete_of_Atoi hA
  simp [process, WorkQueue.Get, hq, bind, Outcome.bind, pure, hex, WorkQueue.Forget,
    WorkQueue.served, checkAnnotation, deref, hdel, Controller.log, createService, hA, hC, hI]

theorem process_updated {σ : Type} (api : ServiceAPI σ) (cont : Controller σ)
    (item : Deployment) (rest : List Deployment) (n : Int) (e : ApiError) (st : σ)
    (hq : cont.wq.queue = item :: rest) (hex : ¬ excludedNamespace item.Namespace)
    (hA : Atoi (item.Annotations.get serviceKey).1 = some n)
    (hC : api.Create cont.client item.Namespace (buildService item n) = (some e, st))
    (hI : IsAlreadyExists e = true) :
    ∃ lg, process api cont = .ret
      (decide ((api.Update st item.Namespace (buildService item n)).1 = none),
        { client := (api.Update st item.Namespace (buildService item n)).2
          wq := cont.wq.served item rest
          timeStarted := cont.timeStarted
          apiCalls := cont.apiCalls ++
            [.create item.Namespace (buildService item n),
             .update item.Namespace (buildService item n)]
          logged := lg }) := by
  unfold excludedNamespace at hex
  have hdel := ne_delete_of_Atoi hA
  rcases hU : api.Update st item.Namespace (buildService item n) with ⟨e2, st2⟩
  cases e2 <;>
  simp [process, WorkQueue.Get, hq, bind, Outcome.bind, pure, hex, WorkQueue.Forget,
    WorkQueue.served, checkAnnotation, deref, hdel, Controller.log, createService, hA, hC, hI,
    hU]

/-! ## `process` over the Service store -/

theorem Store.put_put (s : Store) (ns name : String) (v w : Option Service) :
    (s.put ns name v).put ns name w = s.put ns name w := by
  funext a b
  simp only [Store.put]
  split_ifs <;> rfl

theorem Store.put_same (s : Store) (ns name : String) (v : Option Service) :
    (s.put ns name v) ns name = v := by
  simp [Store.put]

theorem Store.put_other (s : Store) (ns name a b : String) (v : Option Service)
    (h : ¬ (a = ns ∧ b = name)) : (s.put ns name v) a b = s a b := by
  simp [Store.put, h]

theorem process_sync_store (cont : Controller Store) (item : Deployment)
    (rest : List Deployment) (n : Int) (hq : cont.wq.queue = item :: rest)
    (hex : ¬ excludedNamespace item.Namespace)
    (hA : Atoi (item.Annotations.get serviceKey).1 = some n) :
    ∃ c, process storeAPI cont = .ret (true, c) ∧
      c.client = cont.client.put item.Namespace item.Name (some (buildService item n)) ∧
      c.wq = cont.wq.served item rest ∧
      c.apiCalls = cont.apiCalls ++
        (if (cont.client item.Namespace item.Name).isSome then
          [.create item.Namespace (buildService item n),
           .update item.Namespace (buildService item n)]
        else [.create item.Namespace (buildService item n)]) := by
  cases h : cont.client item.Namespace item.Name with
  | none =>
    have hC : storeAPI.Create cont.client item.Namespace (buildService item n)
        = (none, cont.client.put item.Namespace item.Name (some (buildService item n))) := by
      simp [storeAPI, buildService, h]
    obtain ⟨lg, hp⟩ := process_created storeAPI cont item rest n _ hq hex hA hC
    exact ⟨_, hp, rfl, rfl, by simp⟩
  | some s =>
    have hC : storeAPI.Create cont.client item.Namespace (buildService item n)
        = (some .alreadyExists, cont.client) := by
      simp [storeAPI, buildService, h]
    have hU : storeAPI.Update cont.client item.Namespace (buildService item n)
        = (none, cont.client.put item.Namespace item.Name (some (buildService item n))) := by
      simp [storeAPI, buildService, h]
    obtain ⟨lg, hp⟩ := process_updated storeAPI cont item rest n _ _ hq hex hA hC rfl
    rw [hU] at hp
    exact ⟨_, by simpa using hp, rfl, rfl, by simp⟩

theorem process_delete_store (cont : Controller Store) (item : Deployment)
    (rest : List Deployment) (s : Service) (hq : cont.wq.queue = item :: rest)
    (hex : ¬ excludedNamespace item.Namespace)
    (hdel : (item.Annotations.get serviceKey).1 = "delete")
    (hs : cont.client item.Namespace item.Name = some s) :
    ∃ c, process storeAPI cont = .ret (true, c) ∧
      c.client = cont.client.put item.Namespace item.Name none ∧
      c.wq = cont.wq.served item rest ∧
      c.apiCalls = cont.apiCalls ++ [.delete item.Namespace item.Name] := by
  have hD : storeAPI.Delete cont.client item.Namespace item.Name
      = (none, cont.client.put item.Namespace item.Name none) := by
    simp [storeAPI, hs]
  obtain ⟨lg, hp⟩ := process_delete storeAPI cont item rest hq hex hdel
  rw [hD] at hp
  exact ⟨_, by simpa using hp, rfl, rfl, rfl⟩

/-! ## Callbacks on objects that are not Deployments -/

/-- C1: on a payload that is not a Deployment, `handleAdd`, `handleDelete` and `handleUpdate`
(whichever of its two arguments is not a Deployment) do not return normally: after the log line
they read the annotations through the nil pointer and panic. -/
theorem callbacks_panic_on_non_deployment {σ : Type} (cont : Controller σ) (kind : String)
    (o : Obj) :
    handleAdd cont (.other kind) = .panicked .nilPointerDereference ∧
    handleDelete cont (.other kind) = .panicked .nilPointerDereference ∧
    handleUpdate cont (.other kind) o = .panicked .nilPointerDereference ∧
    handleUpdate cont o (.other kind) = .panicked .nilPointerDereference := by
  refine ⟨rfl, rfl, rfl, ?_⟩
  cases o <;> rfl

/-! ## The annotation removed on Update -/

/-- When old carries the annotation, new has a non-nil annotation map without it and the
resource versions differ, `handleUpdate` makes one `Add` call, with the copy of new whose
annotation is set to delete. -/
theorem handleUpdate_annotation_removed {σ : Type} (cont : Controller σ) (old new : Deployment)
    (l : List (String × String)) (hv : old.ResourceVersion ≠ new.ResourceVersion)
    (h1 : (old.Annotations.get serviceKey).2 = true) (hl : new.Annotations = some l)
    (h2 : (new.Annotations.get serviceKey).2 = false) :
    handleUpdate cont (.deployment old) (.deployment new) = .ret
      { cont with
        wq := cont.wq.Add
          { new with
            Annotations := some ((serviceKey, "delete") :: l.filter (fun e => decide (e.1 ≠ serviceKey))) } } := by
  rw [hl] at h2
  simp [handleUpdate, Obj.asDeployment, checkAnnotation, deref, bind, Outcome.bind, pure, hv,
    h1, h2, hl, GoMap.set, Deployment.DeepCopy]

/-- C2: the annotation is removed and new has no annotation map (old is `web`, new is
`webNoAnnotations`): `handleUpdate` adds nothing and panics on the assignment into the nil map
of the copy; with the empty map of `webEmptyAnnotations` it adds the marked copy. -/
theorem handleUpdate_annotation_removed_nil_map :
    handleUpdate startController (.deployment web) (.deployment webNoAnnotations)
      = .panicked .nilMapAssignment ∧
    ∃ c, handleUpdate startController (.deployment web) (.deployment webEmptyAnnotations)
        = .ret c ∧
      c.wq.calls = [.add { webEmptyAnnotations with Annotations := some [(serviceKey, "delete")] }] :=
  ⟨rfl, _, rfl, rfl⟩

/-! ## Release of the dequeued item -/

/-- For every dequeued item `process` returns, and the calls it makes on the queue are `Get`
and then `Forget item`: there is no call of `Done`, and the item is in the processing set
afterwards. -/
theorem process_queue_calls {σ : Type} (api : ServiceAPI σ) (cont : Controller σ)
    (item : Deployment) (rest : List Deployment) (hq : cont.wq.queue = item :: rest) :
    ∃ b c, process api cont = .ret (b, c) ∧ c.wq = cont.wq.served item rest := by
  by_cases hex : excludedNamespace item.Namespace
  · exact ⟨_, _, process_excluded api cont item rest hq hex, rfl⟩
  · by_cases hdel : (item.Annotations.get serviceKey).1 = "delete"
    · obtain ⟨lg, h⟩ := process_delete api cont item rest hq hex hdel
      exact ⟨_, _, h, rfl⟩
    · cases hA : Atoi (item.Annotations.get serviceKey).1 with
      | none =>
        obtain ⟨lg, h⟩ := process_parse_failure api cont item rest hq hex hdel hA
        exact ⟨_, _, h, rfl⟩
      | some n =>
        rcases hC : api.Create cont.client item.Namespace (buildService item n) with ⟨e, st⟩
        cases e with
        | none =>
          obtain ⟨lg, h⟩ := process_created api cont item rest n st hq hex hA hC
          exact ⟨_, _, h, rfl⟩
        | some e =>
          cases hI : IsAlreadyExists e with
          | false =>
            obtain ⟨lg, h⟩ := process_create_failed api cont item rest n e st hq hex hA hC hI
            exact ⟨_, _, h, rfl⟩
          | true =>
            obtain ⟨lg, h⟩ := process_updated api cont item rest n e st hq hex hA hC hI
            exact ⟨_, _, h, rfl⟩

/-- C3: `process` on the dequeued item `web` returns true having called `Get` and `Forget web` on
the queue and never `Done web`; `web` is still in the processing set. -/
theorem process_forgets_but_never_done :
    ∃ c, process storeAPI (withQueue [web]) = .ret (true, c) ∧
      c.wq.calls = [.get, .forget web] ∧
      QueueCall.done web ∉ c.wq.calls ∧
      web ∈ c.wq.processing :=
  ⟨_, rfl, rfl, by decide, by decide⟩

/-! ## Deployments without the annotation -/

/-- C10: for a Deployment `W` without the annotation, `handleAdd` and `handleDelete` return
with the queue untouched, and so does `handleUpdate` from every `old` without the annotation. -/
theorem no_annotation_no_enqueue {σ : Type} (cont : Controller σ) (W : Deployment)
    (h : (W.Annotations.get serviceKey).2 = false) :
    (∃ c, handleAdd cont (.deployment W) = .ret c ∧ c.wq = cont.wq) ∧
    (∃ c, handleDelete cont (.deployment W) = .ret c ∧ c.wq = cont.wq) ∧
    (∀ old : Deployment, (old.Annotations.get serviceKey).2 = false →
      ∃ c, handleUpdate cont (.deployment old) (.deployment W) = .ret c ∧ c.wq = cont.wq) := by
  refine ⟨?_, ?_, ?_⟩
  · simp only [handleAdd, Obj.asDeployment, checkAnnotation, deref, bind, Outcome.bind, pure, h]
    split_ifs <;> simp_all [Controller.log]
  · simp [handleDelete, Obj.asDeployment, checkAnnotation, deref, bind, Outcome.bind, pure, h,
      Controller.log]
  · intro old ho
    simp only [handleUpdate, Obj.asDeployment, checkAnnotation, deref, bind, Outcome.bind, pure,
      h, ho]
    split_ifs <;> simp_all [Controller.log]

/-- C10 at `webNoAnnotations` (no annotation map) with `webEmptyAnnotations` as the old object. -/
theorem no_annotation_no_enqueue_witness :
    (webNoAnnotations.Annotations.get serviceKey).2 = false ∧
    (∃ c, handleAdd startController (.deployment webNoAnnotations) = .ret c ∧
      c.wq = startController.wq) ∧
    (∃ c, handleDelete startController (.deployment webNoAnnotations) = .ret c ∧
      c.wq = startController.wq) ∧
    (∀ old : Deployment, (old.Annotations.get serviceKey).2 = false →
      ∃ c, handleUpdate startController (.deployment old) (.deployment webNoAnnotations) = .ret c ∧
        c.wq = startController.wq) :=
  ⟨by decide, no_annotation_no_enqueue startController webNoAnnotations (by decide)⟩

/-! ## A failed cluster-API call -/

/-- C4, as amended: for a dequeued item in a non-excluded namespace whose cluster-API call
fails, `process` returns false and the item is not added again: among the calls that `process`
makes on the queue there is no `Add` and no `AddRateLimited`, and the queue holds the items that
were behind `item`; `worker` returns at that item without dequeuing another one. -/
theorem process_api_failure_not_requeued {σ : Type} (api : ServiceAPI σ) (cont : Controller σ)
    (item : Deployment) (rest : List Deployment) (hq : cont.wq.queue = item :: rest)
    (hex : ¬ excludedNamespace item.Namespace) (hf : apiCallFails api cont.client item) :
    ∃ c calls, process api cont = .ret (false, c) ∧
      c.wq.calls = cont.wq.calls ++ calls ∧
      (∀ d, QueueCall.add d ∉ calls ∧ QueueCall.addRateLimited d ∉ calls) ∧
      c.wq.queue = rest ∧
      ∀ fuel, worker api (fuel + 1) cont = some (.ret c) := by
  have key : ∃ c, process api cont = .ret (false, c) ∧ c.wq = cont.wq.served item rest := by
    unfold apiCallFails at hf
    by_cases hdel : (item.Annotations.get serviceKey).1 = "delete"
    · rw [if_pos hdel] at hf
      obtain ⟨lg, h⟩ := process_delete api cont item rest hq hex hdel
      rw [decide_eq_false hf] at h
      exact ⟨_, h, rfl⟩
    · rw [if_neg hdel] at hf
      obtain ⟨n, e, hA, hC, hU⟩ := hf
      rcases hC2 : api.Create cont.client item.Namespace (buildService item n) with ⟨e2, st⟩
      rw [hC2] at hC hU
      simp only at hC hU
      subst hC
      cases hI : IsAlreadyExists e with
      | false =>
        obtain ⟨lg, h⟩ := process_create_failed api cont item rest n e st hq hex hA hC2 hI
        exact ⟨_, h, rfl⟩
      | true =>
        obtain ⟨lg, h⟩ := process_updated api cont item rest n e st hq hex hA hC2 hI
        rw [decide_eq_false (hU hI)] at h
        exact ⟨_, h, rfl⟩
  obtain ⟨c, hp, hw⟩ := key
  refine ⟨c, [.get, .forget item], hp, ?_, ?_, ?_, ?_⟩
  · rw [hw]; rfl
  · intro d
    simp
  · rw [hw]; rfl
  · intro fuel
    simp [worker, hp]

/-- C4 at the delete-marked `web` over an empty cluster, where the Delete answers not-found. -/
theorem process_api_failure_not_requeued_witness :
    (withQueue [webDeleteMarked, apiDeployment]).wq.queue = webDeleteMarked :: [apiDeployment] ∧
    ¬ excludedNamespace webDeleteMarked.Namespace ∧
    apiCallFails storeAPI (withQueue [webDeleteMarked, apiDeployment]).client webDeleteMarked ∧
    ∃ c calls, process storeAPI (withQueue [webDeleteMarked, apiDeployment]) = .ret (false, c) ∧
      c.wq.calls = (withQueue [webDeleteMarked, apiDeployment]).wq.calls ++ calls ∧
      (∀ d, QueueCall.add d ∉ calls ∧ QueueCall.addRateLimited d ∉ calls) ∧
      c.wq.queue = [apiDeployment] ∧
      ∀ fuel, worker storeAPI (fuel + 1) (withQueue [webDeleteMarked, apiDeployment])
        = some (.ret c) :=
  have hf : apiCallFails storeAPI (withQueue [webDeleteMarked, apiDeployment]).client
      webDeleteMarked := by
    unfold apiCallFails
    rw [if_pos (by decide)]
    decide
  ⟨rfl, by decide, hf,
    process_api_failure_not_requeued storeAPI (withQueue [webDeleteMarked, apiDeployment])
      webDeleteMarked [apiDeployment] rfl (by decide) hf⟩

/-- C4 as stated fails: the Delete for the delete-marked `web` fails with not-found on an empty
cluster; `process` returns false, the queue has seen neither `Add` nor `AddRateLimited` for the
item, the item is in neither the queue nor the dirty set, and `worker` has returned with
`apiDeployment` still waiting. -/
theorem failed_item_is_dropped_and_worker_stops :
    ∃ c, process storeAPI (withQueue [webDeleteMarked, apiDeployment]) = .ret (false, c) ∧
      c.apiCalls = [.delete "default" "web"] ∧
      QueueCall.add webDeleteMarked ∉ c.wq.calls ∧
      QueueCall.addRateLimited webDeleteMarked ∉ c.wq.calls ∧
      webDeleteMarked ∉ c.wq.queue ∧ webDeleteMarked ∉ c.wq.dirty ∧
      worker storeAPI 10 (withQueue [webDeleteMarked, apiDeployment]) = some (.ret c) ∧
      c.wq.queue = [apiDeployment] :=
  ⟨_, rfl, rfl, by decide, by decide, by decide, by decide, rfl, rfl⟩

/-! ## Telling Sync from Delete -/

/-- C5, as amended: for every dequeued item, `process` issues a Service Delete exactly when the
namespace is not excluded and the value of the annotation is the word delete. -/
theorem process_deletes_iff_marked {σ : Type} (api : ServiceAPI σ) (cont : Controller σ)
    (item : Deployment) (rest : List Deployment) (hq : cont.wq.queue = item :: rest) :
    ∃ b c calls, process api cont = .ret (b, c) ∧ c.apiCalls = cont.apiCalls ++ calls ∧
      ((∃ ns name, ApiCall.delete ns name ∈ calls) ↔
        (¬ excludedNamespace item.Namespace ∧ (item.Annotations.get serviceKey).1 = "delete")) := by
  by_cases hex : excludedNamespace item.Namespace
  · refine ⟨_, _, [], process_excluded api cont item rest hq hex, by simp, ?_⟩
    simp [hex]
  · by_cases hdel : (item.Annotations.get serviceKey).1 = "delete"
    · obtain ⟨lg, h⟩ := process_delete api cont item rest hq hex hdel
      refine ⟨_, _, [.delete item.Namespace item.Name], h, rfl, ?_⟩
      simp [hex, hdel]
    · cases hA : Atoi (item.Annotations.get serviceKey).1 with
      | none =>
        obtain ⟨lg, h⟩ := process_parse_failure api cont item rest hq hex hdel hA
        refine ⟨_, _, [], h, by simp, ?_⟩
        simp [hdel]
      | some n =>
        rcases hC : api.Create cont.client item.Namespace (buildService item n) with ⟨e, st⟩
        cases e with
        | none =>
          obtain ⟨lg, h⟩ := process_created api cont item rest n st hq hex hA hC
          refine ⟨_, _, _, h, rfl, ?_⟩
          simp [hdel]
        | some e =>
          cases hI : IsAlreadyExists e with
          | false =>
            obtain ⟨lg, h⟩ := process_create_failed api cont item rest n e st hq hex hA hC hI
            refine ⟨_, _, _, h, rfl, ?_⟩
            simp [hdel]
          | true =>
            obtain ⟨lg, h⟩ := process_updated api cont item rest n e st hq hex hA hC hI
            refine ⟨_, _, _, h, rfl, ?_⟩
            simp [hdel]

/-- C5 at `web`, whose annotation is 8080: no Delete is issued. -/
theorem process_deletes_iff_marked_witness :
    (withQueue [web]).wq.queue = web :: [] ∧
    ∃ b c calls, process storeAPI (withQueue [web]) = .ret (b, c) ∧
      c.apiCalls = (withQueue [web]).apiCalls ++ calls ∧
      ((∃ ns name, ApiCall.delete ns name ∈ calls) ↔
        (¬ excludedNamespace web.Namespace ∧ (web.Annotations.get serviceKey).1 = "delete")) :=
  ⟨rfl, process_deletes_iff_marked storeAPI (withQueue [web]) web [] rfl⟩

/-- C5 as stated fails: `webAnnotatedDelete` carries the annotation value delete itself; the
enqueue branch of `handleAdd` and the final branch of `handleUpdate` both add it unmodified,
and `process` then issues a Service Delete for it. -/
theorem sync_item_with_value_delete_is_deleted :
    ∃ c1, handleAdd startController (.deployment webAnnotatedDelete) = .ret c1 ∧
      c1.wq.calls = [.add webAnnotatedDelete] ∧
      (∃ c, handleUpdate startController (.deployment web) (.deployment webAnnotatedDelete)
          = .ret c ∧ c.wq.calls = [.add webAnnotatedDelete]) ∧
      ∃ b c2, process storeAPI c1 = .ret (b, c2) ∧ c2.apiCalls = [.delete "default" "web"] :=
  ⟨_, rfl, rfl, ⟨_, rfl, rfl⟩, _, _, rfl, rfl⟩

/-! ## Sync applied twice -/

/-- C6: over the Service store, for a Deployment `d` in a non-excluded namespace whose annotation
decodes to `n`, and every initial store, two runs of `process` on `d` both return true; the
second makes a Create and then an Update call; afterwards the store holds the Service built from
`d` at (namespace, name) and is the store the first run left. -/
theorem sync_twice_idempotent (cont : Controller Store) (d : Deployment)
    (rest : List Deployment) (n : Int) (hq : cont.wq.queue = d :: d :: rest)
    (hex : ¬ excludedNamespace d.Namespace)
    (hA : Atoi (d.Annotations.get serviceKey).1 = some n) :
    ∃ c1 c2, process storeAPI cont = .ret (true, c1) ∧ process storeAPI c1 = .ret (true, c2) ∧
      c2.apiCalls = c1.apiCalls ++
        [.create d.Namespace (buildService d n), .update d.Namespace (buildService d n)] ∧
      c2.client d.Namespace d.Name = some (buildService d n) ∧
      c2.client = c1.client := by
  obtain ⟨c1, h1, hc1, hw1, -⟩ := process_sync_store cont d (d :: rest) n hq hex hA
  have hq1 : c1.wq.queue = d :: rest := by rw [hw1]; rfl
  obtain ⟨c2, h2, hc2, -, ha2⟩ := process_sync_store c1 d rest n hq1 hex hA
  refine ⟨c1, c2, h1, h2, ?_, ?_, ?_⟩
  · rw [ha2, hc1, Store.put_same]
    rfl
  · rw [hc2, Store.put_same]
  · rw [hc2, hc1, Store.put_put]

/-- C6 at `web` over an empty cluster. -/
theorem sync_twice_idempotent_witness :
    (withQueue [web, web]).wq.queue = web :: web :: [] ∧
    ¬ excludedNamespace web.Namespace ∧
    Atoi (web.Annotations.get serviceKey).1 = some 8080 ∧
    ∃ c1 c2, process storeAPI (withQueue [web, web]) = .ret (true, c1) ∧
      process storeAPI c1 = .ret (true, c2) ∧
      c2.apiCalls = c1.apiCalls ++
        [.create web.Namespace (buildService web 8080),
         .update web.Namespace (buildService web 8080)] ∧
      c2.client web.Namespace web.Name = some (buildService web 8080) ∧
      c2.client = c1.client :=
  ⟨rfl, by decide, by decide,
    sync_twice_idempotent (withQueue [web, web]) web [] 8080 rfl (by decide) (by decide)⟩

/-! ## Sync followed by Delete -/

/-- C7: over the Service store, for a Deployment `d` in a non-excluded namespace whose annotation
decodes to an integer, `process` on `d` and then on the copy of `d` whose annotation is set to
delete returns true both times; afterwards the store has no Service at (d.Namespace, d.Name) and
every other key holds what it held at the start. -/
theorem sync_then_delete_round_trip (cont : Controller Store) (d : Deployment) (ann : GoMap)
    (rest : List Deployment) (n : Int)
    (hann : d.Annotations.set serviceKey "delete" = .ret ann)
    (hq : cont.wq.queue = d :: { d with Annotations := ann } :: rest)
    (hex : ¬ excludedNamespace d.Namespace)
    (hA : Atoi (d.Annotations.get serviceKey).1 = some n) :
    ∃ c1 c2, process storeAPI cont = .ret (true, c1) ∧ process storeAPI c1 = .ret (true, c2) ∧
      c2.client d.Namespace d.Name = none ∧
      ∀ ns name, ¬ (ns = d.Namespace ∧ name = d.Name) →
        c2.client ns name = cont.client ns name := by
  have hdel : (GoMap.get ann serviceKey).1 = "delete" := by
    cases hd : d.Annotations with
    | none => simp [GoMap.set, hd] at hann
    | some l =>
      simp only [GoMap.set, hd, Outcome.ret.injEq] at hann
      rw [← hann, GoMap.get_cons_self]
  obtain ⟨c1, h1, hc1, hw1, -⟩ :=
    process_sync_store cont d ({ d with Annotations := ann } :: rest) n hq hex hA
  have hq1 : c1.wq.queue = { d with Annotations := ann } :: rest := by rw [hw1]; rfl
  have hs : c1.client d.Namespace d.Name = some (buildService d n) := by
    rw [hc1, Store.put_same]
  obtain ⟨c2, h2, hc2, -, -⟩ := process_delete_store c1 { d with Annotations := ann } rest
    (buildService d n) hq1 hex hdel hs
  refine ⟨c1, c2, h1, h2, ?_, ?_⟩
  · rw [hc2]
    exact Store.put_same _ _ _ _
  · intro ns name hne
    rw [hc2, hc1]
    simp only [Store.put, if_neg hne]

/-- C7 at `web` and its delete-marked copy over an empty cluster. -/
theorem sync_then_delete_round_trip_witness :
    web.Annotations.set serviceKey "delete" = .ret (some [(serviceKey, "delete")]) ∧
    (withQueue [web, webDeleteMarked]).wq.queue
      = web :: { web with Annotations := some [(serviceKey, "delete")] } :: [] ∧
    ¬ excludedNamespace web.Namespace ∧
    Atoi (web.Annotations.get serviceKey).1 = some 8080 ∧
    ∃ c1 c2, process storeAPI (withQueue [web, webDeleteMarked]) = .ret (true, c1) ∧
      process storeAPI c1 = .ret (true, c2) ∧
      c2.client web.Namespace web.Name = none ∧
      ∀ ns name, ¬ (ns = web.Namespace ∧ name = web.Name) →
        c2.client ns name = (withQueue [web, webDeleteMarked]).client ns name :=
  ⟨by decide, rfl, by decide, by decide,
    sync_then_delete_round_trip (withQueue [web, webDeleteMarked]) web
      (some [(serviceKey, "delete")]) [] 8080 (by decide) rfl (by decide) (by decide)⟩

/-! ## A changed port -/

/-- C8, as amended: on an Update with different resource versions where new carries a value that
decodes to `p2` and old lacks the annotation or carries another value, `handleUpdate` makes one
`Add` call, with new itself; and when new is in a non-excluded namespace and `p2` is in the
signed 32-bit range, `process` on that item over any store returns true and leaves at
(namespace, name) a Service whose port list is the one entry http with value `p2`. -/
theorem port_change_is_upsert (cont : Controller Store) (old new : Deployment) (p2 : Int)
    (hv : old.ResourceVersion ≠ new.ResourceVersion)
    (h2 : (new.Annotations.get serviceKey).2 = true)
    (hA : Atoi (new.Annotations.get serviceKey).1 = some p2)
    (h1 : (old.Annotations.get serviceKey).2 = false ∨
      (old.Annotations.get serviceKey).1 ≠ (new.Annotations.get serviceKey).1) :
    (handleUpdate cont (.deployment old) (.deployment new)
        = .ret { cont with wq := cont.wq.Add new } ∧
      (cont.wq.Add new).calls = cont.wq.calls ++ [.add new]) ∧
    (¬ (new.Namespace = "kube-system" ∨ new.Namespace = "local-path-storage") →
      -(2 ^ 31) ≤ p2 → p2 < 2 ^ 31 →
      ∀ (cont2 : Controller Store) (rest : List Deployment), cont2.wq.queue = new :: rest →
        ∃ c svc, process storeAPI cont2 = .ret (true, c) ∧
          c.client new.Namespace new.Name = some svc ∧
          svc.Ports = [{ Name := "http", Port := p2 }]) := by
  refine ⟨⟨?_, ?_⟩, ?_⟩
  · rcases h1 with h1 | h1 <;>
    simp [handleUpdate, Obj.asDeployment, checkAnnotation, deref, bind, Outcome.bind, pure, hv,
      h1, h2]
  · unfold WorkQueue.Add
    simp only
    split_ifs <;> rfl
  · intro hex hlo hhi cont2 rest hq
    obtain ⟨c, h, hc, -, -⟩ := process_sync_store cont2 new rest p2 hq hex hA
    refine ⟨c, buildService new p2, h, ?_, ?_⟩
    · rw [hc, Store.put_same]
    · simp [buildService, toInt32_of_range hlo hhi]

/-- C8 at the update of `web` from port 8080 to port 9090 (`webPort9090`), in the namespace
default and with a port in the signed 32-bit range. -/
theorem port_change_is_upsert_witness :
    web.ResourceVersion ≠ webPort9090.ResourceVersion ∧
    (webPort9090.Annotations.get serviceKey).2 = true ∧
    Atoi (webPort9090.Annotations.get serviceKey).1 = some 9090 ∧
    ((web.Annotations.get serviceKey).2 = false ∨
      (web.Annotations.get serviceKey).1 ≠ (webPort9090.Annotations.get serviceKey).1) ∧
    ¬ (webPort9090.Namespace = "kube-system" ∨ webPort9090.Namespace = "local-path-storage") ∧
    (-(2 ^ 31) ≤ (9090 : Int) ∧ (9090 : Int) < 2 ^ 31) ∧
    (handleUpdate startController (.deployment web) (.deployment webPort9090)
        = .ret { startController with wq := startController.wq.Add webPort9090 } ∧
      (startController.wq.Add webPort9090).calls
        = startController.wq.calls ++ [.add webPort9090]) ∧
    (¬ (webPort9090.Namespace = "kube-system" ∨ webPort9090.Namespace = "local-path-storage") →
      -(2 ^ 31) ≤ (9090 : Int) → (9090 : Int) < 2 ^ 31 →
      ∀ (cont2 : Controller Store) (rest : List Deployment),
        cont2.wq.queue = webPort9090 :: rest →
        ∃ c svc, process storeAPI cont2 = .ret (true, c) ∧
          c.client webPort9090.Namespace webPort9090.Name = some svc ∧
          svc.Ports = [{ Name := "http", Port := 9090 }]) :=
  ⟨by decide, by decide, by decide, Or.inr (by decide), by decide, by decide,
    port_change_is_upsert startController web webPort9090 9090 (by decide) (by decide)
      (by decide) (Or.inr (by decide))⟩

/-- C8 as stated fails twice: for `systemNew` in kube-system the enqueued item is skipped by
`process` and no Service exists afterwards; for `webHugePort` the annotation decodes to
4294967376 and the Service left in the store has port 80. -/
theorem port_change_excluded_or_out_of_range :
    (∃ c, handleUpdate startController (.deployment systemOld) (.deployment systemNew) = .ret c ∧
      c.wq.queue = [systemNew] ∧
      Atoi (systemNew.Annotations.get serviceKey).1 = some 9090 ∧
      ∃ c2, process storeAPI c = .ret (true, c2) ∧ c2.apiCalls = [] ∧
        c2.client "kube-system" "dns" = none) ∧
    (∃ c, handleUpdate startController (.deployment web) (.deployment webHugePort) = .ret c ∧
      c.wq.queue = [webHugePort] ∧
      Atoi (webHugePort.Annotations.get serviceKey).1 = some 4294967376 ∧
      ∃ c2, process storeAPI c = .ret (true, c2) ∧
        (c2.client "default" "web").map (fun s => s.Ports)
          = some [{ Name := "http", Port := 80 }]) :=
  ⟨⟨_, rfl, rfl, by decide, _, rfl, rfl, rfl⟩, ⟨_, rfl, rfl, by decide, _, rfl, rfl⟩⟩

/-! ## The port conversion -/

/-- When the annotation decodes to `n`, `createService` returns, its first client call is a
Create of the Service built from the Deployment, and any further call is an Update with that same
Service. -/
theorem createService_submits_built_service {σ : Type} (api : ServiceAPI σ)
    (cont : Controller σ) (d : Deployment) (n : Int)
    (hA : Atoi (d.Annotations.get serviceKey).1 = some n) :
    ∃ e c more, createService api cont (some d) = .ret (e, c) ∧
      c.apiCalls = cont.apiCalls ++ .create d.Namespace (buildService d n) :: more ∧
      ∀ call ∈ more, call = .update d.Namespace (buildService d n) := by
  rcases hC : api.Create cont.client d.Namespace (buildService d n) with ⟨e, st⟩
  cases e with
  | none =>
    simp only [createService, checkAnnotation, deref, bind, Outcome.bind, pure, hA, hC]
    exact ⟨_, _, [], rfl, rfl, by simp⟩
  | some e =>
    cases hI : IsAlreadyExists e with
    | false =>
      simp only [createService, checkAnnotation, deref, bind, Outcome.bind, pure, hA, hC, hI]
      exact ⟨_, _, [], rfl, rfl, by simp⟩
    | true =>
      rcases hU : api.Update st d.Namespace (buildService d n) with ⟨e2, st2⟩
      cases e2 with
      | none =>
        simp only [createService, checkAnnotation, deref, bind, Outcome.bind, pure, hA, hC, hI,
          hU, Controller.log]
        exact ⟨_, _, [.update d.Namespace (buildService d n)], rfl, by simp, by simp⟩
      | some e2 =>
        simp only [createService, checkAnnotation, deref, bind, Outcome.bind, pure, hA, hC, hI,
          hU, Controller.log]
        exact ⟨_, _, [.update d.Namespace (buildService d n)], rfl, by simp, by simp⟩

/-- C9, as amended: when the annotation decodes to an `n` in the signed 32-bit range,
`createService` returns, and the Service it submits to Create (and to Update, when it goes on to
update) has the one port entry http with value `n`. -/
theorem createService_port_in_int32_range {σ : Type} (api : ServiceAPI σ)
    (cont : Controller σ) (d : Deployment) (n : Int)
    (hA : Atoi (d.Annotations.get serviceKey).1 = some n)
    (hlo : -(2 ^ 31) ≤ n) (hhi : n < 2 ^ 31) :
    ∃ e c more svc, createService api cont (some d) = .ret (e, c) ∧
      c.apiCalls = cont.apiCalls ++ .create d.Namespace svc :: more ∧
      (∀ call ∈ more, call = .update d.Namespace svc) ∧
      svc.Ports = [{ Name := "http", Port := n }] := by
  obtain ⟨e, c, more, h, hc, hm⟩ := createService_submits_built_service api cont d n hA
  refine ⟨e, c, more, buildService d n, h, hc, hm, ?_⟩
  simp [buildService, toInt32_of_range hlo hhi]

/-- C9 at `web`, whose annotation decodes to 8080. -/
theorem createService_port_in_int32_range_witness :
    Atoi (web.Annotations.get serviceKey).1 = some 8080 ∧
    (-(2 ^ 31) ≤ (8080 : Int) ∧ (8080 : Int) < 2 ^ 31) ∧
    ∃ e c more svc, createService storeAPI startController (some web) = .ret (e, c) ∧
      c.apiCalls = startController.apiCalls ++ .create web.Namespace svc :: more ∧
      (∀ call ∈ more, call = .update web.Namespace svc) ∧
      svc.Ports = [{ Name := "http", Port := 8080 }] :=
  ⟨by decide, by decide,
    createService_port_in_int32_range storeAPI startController web 8080 (by decide) (by decide)
      (by decide)⟩

/-- C9 as stated fails: the annotation of `webHugePort` decodes to 4294967376, which
`strconv.Atoi` accepts, and the Service that `createService` submits has port 80. -/
theorem huge_port_is_truncated :
    Atoi (webHugePort.Annotations.get serviceKey).1 = some 4294967376 ∧
    ∃ c, createService storeAPI startController (some webHugePort) = .ret (none, c) ∧
      c.apiCalls =
        [.create "default"
          { Name := "web", Namespace := "default", Labels := some [("app", "web")],
            Selector := some [("run", "web")], Ports := [{ Name := "http", Port := 80 }] }] :=
  ⟨by decide, _, rfl, rfl⟩

/-! ## Updates that change nothing -/

/-- C11: when old and new have the same resource version, `handleUpdate` returns with the
controller as it was (no queue call, no log line), whatever their annotations are. -/
theorem handleUpdate_same_resource_version {σ : Type} (cont : Controller σ)
    (old new : Deployment) (hv : old.ResourceVersion = new.ResourceVersion) :
    handleUpdate cont (.deployment old) (.deployment new) = .ret cont := by
  simp [handleUpdate, Obj.asDeployment, checkAnnotation, deref, bind, Outcome.bind, pure, hv]

/-- C11 at `web` as old and, as new, `web` with its annotation map removed and the resource
version kept. -/
theorem handleUpdate_same_resource_version_witness :
    web.ResourceVersion = ({ web with Annotations := none } : Deployment).ResourceVersion ∧
    handleUpdate startController (.deployment web)
      (.deployment { web with Annotations := none }) = .ret startController :=
  ⟨rfl, handleUpdate_same_resource_version startController web { web with Annotations := none }
    rfl⟩

/-- C20: when the resource versions differ and old and new both carry the annotation with the
same value, `handleUpdate` returns with the queue as it was, whatever the other fields are. -/
theorem handleUpdate_same_value {σ : Type} (cont : Controller σ) (old new : Deployment)
    (hv : old.ResourceVersion ≠ new.ResourceVersion)
    (h1 : (old.Annotations.get serviceKey).2 = true)
    (h2 : (new.Annotations.get serviceKey).2 = true)
    (hsame : (old.Annotations.get serviceKey).1 = (new.Annotations.get serviceKey).1) :
    ∃ c, handleUpdate cont (.deployment old) (.deployment new) = .ret c ∧ c.wq = cont.wq := by
  simp [handleUpdate, Obj.asDeployment, checkAnnotation, deref, bind, Outcome.bind, pure, hv,
    h1, h2, hsame, Controller.log]

/-- C20 at `web` and `webRelabelled`, which differ in labels, pod template labels and another
annotation. -/
theorem handleUpdate_same_value_witness :
    web.ResourceVersion ≠ webRelabelled.ResourceVersion ∧
    (web.Annotations.get serviceKey).2 = true ∧
    (webRelabelled.Annotations.get serviceKey).2 = true ∧
    (web.Annotations.get serviceKey).1 = (webRelabelled.Annotations.get serviceKey).1 ∧
    ∃ c, handleUpdate startController (.deployment web) (.deployment webRelabelled) = .ret c ∧
      c.wq = startController.wq :=
  ⟨by decide, by decide, by decide, by decide,
    handleUpdate_same_value startController web webRelabelled (by decide) (by decide)
      (by decide) (by decide)⟩

/-! ## Excluded namespaces -/

/-- C12: for a dequeued Deployment of the namespace kube-system or local-path-storage,
`process` returns true, makes no call on the Service client and leaves the cluster as it was,
whatever the annotations are. -/
theorem process_excluded_namespace_no_call {σ : Type} (api : ServiceAPI σ)
    (cont : Controller σ) (item : Deployment) (rest : List Deployment)
    (hq : cont.wq.queue = item :: rest)
    (hns : item.Namespace = "kube-system" ∨ item.Namespace = "local-path-storage") :
    ∃ c, process api cont = .ret (true, c) ∧ c.apiCalls = cont.apiCalls ∧
      c.client = cont.client := by
  exact ⟨_, process_excluded api cont item rest hq hns, rfl, rfl⟩

/-- C12 at `systemNew` of kube-system. -/
theorem process_excluded_namespace_no_call_witness :
    (withQueue [systemNew]).wq.queue = systemNew :: [] ∧
    (systemNew.Namespace = "kube-system" ∨ systemNew.Namespace = "local-path-storage") ∧
    ∃ c, process storeAPI (withQueue [systemNew]) = .ret (true, c) ∧
      c.apiCalls = (withQueue [systemNew]).apiCalls ∧
      c.client = (withQueue [systemNew]).client :=
  ⟨rfl, Or.inl rfl,
    process_excluded_namespace_no_call storeAPI (withQueue [systemNew]) systemNew [] rfl
      (Or.inl rfl)⟩

/-! ## Replay suppression on Add -/

theorem Time.Sub_pos_iff (t u : Int) : Time.Sub t u > 0 ↔ u < t := by
  have key : ∀ a b : Int,
      (if a - b > 2 ^ 63 - 1 then (2 ^ 63 - 1 : Int)
        else if a - b < -(2 ^ 63) then -(2 ^ 63) else a - b) > 0 ↔ b < a := by
    intro a b
    split_ifs <;> omega
  exact key t u

/-- C13: for a Deployment `d` that carries the annotation, `handleAdd` returns with the
controller as it was when `d` was created strictly before the start time, and with the one call
`Add d` made on the queue when `d` was created at or after the start time. -/
theorem handleAdd_replay_suppression {σ : Type} (cont : Controller σ) (d : Deployment)
    (h : (d.Annotations.get serviceKey).2 = true) :
    (d.CreationTimestamp < cont.timeStarted →
      handleAdd cont (.deployment d) = .ret cont) ∧
    (cont.timeStarted ≤ d.CreationTimestamp →
      handleAdd cont (.deployment d) = .ret { cont with wq := cont.wq.Add d }) := by
  constructor
  · intro hlt
    have hpos := (Time.Sub_pos_iff cont.timeStarted d.CreationTimestamp).mpr hlt
    simp [handleAdd, Obj.asDeployment, checkAnnotation, deref, bind, Outcome.bind, pure, hpos]
  · intro hle
    have hpos : ¬ Time.Sub cont.timeStarted d.CreationTimestamp > 0 := by
      rw [Time.Sub_pos_iff]
      exact not_lt.mpr hle
    simp [handleAdd, Obj.asDeployment, checkAnnotation, deref, bind, Outcome.bind, pure, hpos, h]

/-- C13 at `web`, created at instant 100 and seen by the controller started at instant 50. -/
theorem handleAdd_replay_suppression_witness :
    (web.Annotations.get serviceKey).2 = true ∧
    (web.CreationTimestamp < startController.timeStarted →
      handleAdd startController (.deployment web) = .ret startController) ∧
    (startController.timeStarted ≤ web.CreationTimestamp →
      handleAdd startController (.deployment web)
        = .ret { startController with wq := startController.wq.Add web }) :=
  ⟨by decide, handleAdd_replay_suppression startController web (by decide)⟩

/-! ## The queue shut down -/

/-- On an empty queue that is shutting down, `Get` hands back the nil item, and `process` stops
with a panic at the type assertion that precedes its shutdown check; `worker` ends with it. -/
theorem process_panics_on_shut_down_queue {σ : Type} (api : ServiceAPI σ) (cont : Controller σ)
    (hq : cont.wq.queue = []) (hs : cont.wq.shuttingDown = true) :
    cont.wq.Get = .ret (none, true, { cont.wq with calls := cont.wq.calls ++ [.get] }) ∧
    process api cont = .panicked .interfaceConversion ∧
    ∀ fuel, worker api (fuel + 1) cont = some (.panicked .interfaceConversion) := by
  have hg : cont.wq.Get = .ret (none, true, { cont.wq with calls := cont.wq.calls ++ [.get] }) := by
    simp [WorkQueue.Get, hq, hs]
  have hp : process api cont = .panicked .interfaceConversion := by
    simp [process, hg, bind, Outcome.bind]
  refine ⟨hg, hp, ?_⟩
  intro fuel
  simp [worker, hp]

/-! ### Nothing in the controller shuts the queue down -/

theorem WorkQueue.Add_shuttingDown (q : WorkQueue) (item : Deployment) :
    (q.Add item).shuttingDown = q.shuttingDown := by
  unfold WorkQueue.Add
  simp only
  split_ifs <;> rfl

theorem handleAdd_keeps_flag {σ : Type} (cont : Controller σ) (o : Obj) (c : Controller σ)
    (h : handleAdd cont o = .ret c) : c.wq.shuttingDown = cont.wq.shuttingDown := by
  cases o with
  | other k => exact Outcome.noConfusion (show Outcome.panicked _ = Outcome.ret c from h)
  | deployment d =>
    cases hok : (d.Annotations.get serviceKey).2 <;>
    simp only [handleAdd, Obj.asDeployment, checkAnnotation, deref, bind, Outcome.bind, pure,
      hok] at h <;>
    split_ifs at h <;> cases h <;>
    first | rfl | exact WorkQueue.Add_shuttingDown _ _

theorem handleDelete_keeps_flag {σ : Type} (cont : Controller σ) (o : Obj) (c : Controller σ)
    (h : handleDelete cont o = .ret c) : c.wq.shuttingDown = cont.wq.shuttingDown := by
  cases o with
  | other k => exact Outcome.noConfusion (show Outcome.panicked _ = Outcome.ret c from h)
  | deployment d =>
    cases hok : (d.Annotations.get serviceKey).2 with
    | false =>
      simp [handleDelete, Obj.asDeployment, checkAnnotation, deref, bind, Outcome.bind, pure,
        hok] at h
      rw [← h]
      rfl
    | true =>
      obtain ⟨l, hl⟩ := GoMap.some_of_get hok
      rw [hl] at hok
      simp [handleDelete, Obj.asDeployment, checkAnnotation, deref, bind, Outcome.bind, pure,
        hok, hl, GoMap.set, Deployment.DeepCopy] at h
      rw [← h]
      exact WorkQueue.Add_shuttingDown _ _

theorem handleUpdate_keeps_flag {σ : Type} (cont : Controller σ) (o1 o2 : Obj)
    (c : Controller σ) (h : handleUpdate cont o1 o2 = .ret c) :
    c.wq.shuttingDown = cont.wq.shuttingDown := by
  cases o1 with
  | other k => exact Outcome.noConfusion (show Outcome.panicked _ = Outcome.ret c from h)
  | deployment d1 =>
    cases o2 with
    | other k => exact Outcome.noConfusion (show Outcome.panicked _ = Outcome.ret c from h)
    | deployment d2 =>
      by_cases hv : d1.ResourceVersion = d2.ResourceVersion
      · simp [handleUpdate, Obj.asDeployment, checkAnnotation, deref, bind, Outcome.bind, pure,
          hv] at h
        rw [← h]
      · cases hm : d2.Annotations with
        | none =>
          have hn : GoMap.get (none : GoMap) serviceKey = ("", false) := rfl
          cases hok1 : (d1.Annotations.get serviceKey).2 <;>
          simp [handleUpdate, Obj.asDeployment, checkAnnotation, deref, bind, Outcome.bind,
            pure, hv, hm, hok1, hn, GoMap.set, Deployment.DeepCopy] at h
          rw [← h]
          rfl
        | some l =>
          simp only [handleUpdate, Obj.asDeployment, checkAnnotation, deref, bind,
            Outcome.bind, pure, hm, GoMap.set, Deployment.DeepCopy] at h
          split_ifs at h <;> cases h <;>
          first | rfl | exact WorkQueue.Add_shuttingDown _ _

theorem process_keeps_flag {σ : Type} (api : ServiceAPI σ) (cont : Controller σ) (b : Bool)
    (c : Controller σ) (h : process api cont = .ret (b, c)) :
    c.wq.shuttingDown = cont.wq.shuttingDown := by
  cases hq : cont.wq.queue with
  | nil =>
    cases hs : cont.wq.shuttingDown with
    | true =>
      rw [(process_panics_on_shut_down_queue api cont hq hs).2.1] at h
      exact Outcome.noConfusion h
    | false =>
      have hb : process api cont = .blocked := by
        simp [process, WorkQueue.Get, hq, hs, bind, Outcome.bind]
      rw [hb] at h
      exact Outcome.noConfusion h
  | cons item rest =>
    obtain ⟨b2, c2, h2, hw⟩ := process_queue_calls api cont item rest hq
    rw [h2] at h
    cases h
    rw [hw]
    rfl

/-- C14, as amended: when the queue is shut down, so that `Get` returns no item together with the
shutting-down flag, `process` does not return true and its outcome is the same for every Service
client (no call reaches the client), so `worker` ends in that iteration. The controller never
brings this state about: the callbacks and `process` leave the shutting-down flag of the queue
as it was, and on the same empty queue not shut down `process` waits in `Get`. -/
theorem process_on_shut_down_queue {σ : Type} (api : ServiceAPI σ) (cont : Controller σ)
    (hq : cont.wq.queue = []) (hs : cont.wq.shuttingDown = true) :
    cont.wq.Get = .ret (none, true, { cont.wq with calls := cont.wq.calls ++ [.get] }) ∧
    (∀ c, process api cont ≠ .ret (true, c)) ∧
    (∀ api2 : ServiceAPI σ, process api2 cont = process api cont) ∧
    (worker api 1 cont ≠ none ∧ ∀ fuel, worker api (fuel + 1) cont = worker api 1 cont) ∧
    process api { cont with wq := { cont.wq with shuttingDown := false } } = .blocked ∧
    ∀ cont2 : Controller σ,
      (∀ o c, handleAdd cont2 o = .ret c → c.wq.shuttingDown = cont2.wq.shuttingDown) ∧
      (∀ o1 o2 c, handleUpdate cont2 o1 o2 = .ret c →
        c.wq.shuttingDown = cont2.wq.shuttingDown) ∧
      (∀ o c, handleDelete cont2 o = .ret c → c.wq.shuttingDown = cont2.wq.shuttingDown) ∧
      (∀ b c, process api cont2 = .ret (b, c) →
        c.wq.shuttingDown = cont2.wq.shuttingDown) := by
  obtain ⟨hg, hp, hw⟩ := process_panics_on_shut_down_queue api cont hq hs
  refine ⟨hg, ?_, ?_, ⟨?_, ?_⟩, ?_, ?_⟩
  · intro c hc
    rw [hp] at hc
    exact Outcome.noConfusion hc
  · intro api2
    rw [hp, (process_panics_on_shut_down_queue api2 cont hq hs).2.1]
  · rw [hw 0]
    exact Option.noConfusion
  · intro fuel
    rw [hw fuel, hw 0]
  · simp [process, WorkQueue.Get, hq, bind, Outcome.bind]
  · intro cont2
    exact ⟨handleAdd_keeps_flag cont2, handleUpdate_keeps_flag cont2,
      handleDelete_keeps_flag cont2, process_keeps_flag api cont2⟩

/-- C14 at `shutDownController`. -/
theorem process_on_shut_down_queue_witness :
    shutDownController.wq.queue = [] ∧ shutDownController.wq.shuttingDown = true ∧
    shutDownController.wq.Get = .ret (none, true,
      { shutDownController.wq with calls := shutDownController.wq.calls ++ [.get] }) ∧
    (∀ c, process storeAPI shutDownController ≠ .ret (true, c)) ∧
    (∀ api2 : ServiceAPI Store,
      process api2 shutDownController = process storeAPI shutDownController) ∧
    (worker storeAPI 1 shutDownController ≠ none ∧
      ∀ fuel, worker storeAPI (fuel + 1) shutDownController
        = worker storeAPI 1 shutDownController) ∧
    process storeAPI
      { shutDownController with wq := { shutDownController.wq with shuttingDown := false } }
      = .blocked ∧
    ∀ cont2 : Controller Store,
      (∀ o c, handleAdd cont2 o = .ret c → c.wq.shuttingDown = cont2.wq.shuttingDown) ∧
      (∀ o1 o2 c, handleUpdate cont2 o1 o2 = .ret c →
        c.wq.shuttingDown = cont2.wq.shuttingDown) ∧
      (∀ o c, handleDelete cont2 o = .ret c → c.wq.shuttingDown = cont2.wq.shuttingDown) ∧
      (∀ b c, process storeAPI cont2 = .ret (b, c) →
        c.wq.shuttingDown = cont2.wq.shuttingDown) :=
  ⟨rfl, rfl, process_on_shut_down_queue storeAPI shutDownController rfl rfl⟩

/-- C14 as stated fails: on the shut-down queue of `shutDownController`, `Get` returns the nil
item with the flag, and `process` does not return false: it stops with a panic at the type
assertion on the nil item, and `worker` ends with that panic. -/
theorem shut_down_queue_panics_before_return :
    shutDownController.wq.Get = .ret (none, true,
      { shutDownController.wq with calls := shutDownController.wq.calls ++ [.get] }) ∧
    process storeAPI shutDownController = .panicked .interfaceConversion ∧
    worker storeAPI 1 shutDownController = some (.panicked .interfaceConversion) :=
  ⟨rfl, rfl, rfl⟩

/-! ## The Service that is submitted -/

/-- C15: when the annotation of `d` decodes to an integer, `createService` submits to Create
(and to Update, when it goes on to update) a Service with the name, namespace and labels of `d`,
the pod template labels of `d` as selector, and a port list of one entry named http; for `web`,
whose annotation is 8080, the port value is 8080. -/
theorem createService_service_fields {σ : Type} (api : ServiceAPI σ) (cont : Controller σ)
    (d : Deployment) (n : Int) (hA : Atoi (d.Annotations.get serviceKey).1 = some n) :
    (∃ e c more svc, createService api cont (some d) = .ret (e, c) ∧
      c.apiCalls = cont.apiCalls ++ .create d.Namespace svc :: more ∧
      (∀ call ∈ more, call = .update d.Namespace svc) ∧
      svc.Name = d.Name ∧ svc.Namespace = d.Namespace ∧ svc.Labels = d.Labels ∧
      svc.Selector = d.TemplateLabels ∧
      ∃ p, svc.Ports = [{ Name := "http", Port := p }]) ∧
    (∃ c, createService storeAPI startController (some web) = .ret (none, c) ∧
      c.apiCalls =
        [.create "default"
          { Name := "web", Namespace := "default", Labels := some [("app", "web")],
            Selector := some [("run", "web")], Ports := [{ Name := "http", Port := 8080 }] }]) := by
  constructor
  · obtain ⟨e, c, more, h, hc, hm⟩ := createService_submits_built_service api cont d n hA
    exact ⟨e, c, more, buildService d n, h, hc, hm, rfl, rfl, rfl, rfl, toInt32 n, rfl⟩
  · exact ⟨_, rfl, rfl⟩

/-- C15 at `web`. -/
theorem createService_service_fields_witness :
    Atoi (web.Annotations.get serviceKey).1 = some 8080 ∧
    (∃ e c more svc, createService storeAPI startController (some web) = .ret (e, c) ∧
      c.apiCalls = startController.apiCalls ++ .create web.Namespace svc :: more ∧
      (∀ call ∈ more, call = .update web.Namespace svc) ∧
      svc.Name = web.Name ∧ svc.Namespace = web.Namespace ∧ svc.Labels = web.Labels ∧
      svc.Selector = web.TemplateLabels ∧
      ∃ p, svc.Ports = [{ Name := "http", Port := p }]) ∧
    (∃ c, createService storeAPI startController (some web) = .ret (none, c) ∧
      c.apiCalls =
        [.create "default"
          { Name := "web", Namespace := "default", Labels := some [("app", "web")],
            Selector := some [("run", "web")], Ports := [{ Name := "http", Port := 8080 }] }]) :=
  ⟨by decide, createService_service_fields storeAPI startController web 8080 (by decide)⟩

/-! ## The Delete intent -/

/-- C16: for a dequeued Deployment in a non-excluded namespace whose annotation value is delete,
`process` makes one call on the Service client, the Delete for (namespace, name); it returns
true exactly when that call returns no error, and so false on not-found. -/
theorem process_delete_marked {σ : Type} (api : ServiceAPI σ) (cont : Controller σ)
    (item : Deployment) (rest : List Deployment) (hq : cont.wq.queue = item :: rest)
    (hex : ¬ (item.Namespace = "kube-system" ∨ item.Namespace = "local-path-storage"))
    (hdel : (item.Annotations.get serviceKey).1 = "delete") :
    ∃ b c, process api cont = .ret (b, c) ∧
      c.apiCalls = cont.apiCalls ++ [.delete item.Namespace item.Name] ∧
      (b = true ↔ (api.Delete cont.client item.Namespace item.Name).1 = none) ∧
      ((api.Delete cont.client item.Namespace item.Name).1 = some .notFound → b = false) := by
  obtain ⟨lg, h⟩ := process_delete api cont item rest hq hex hdel
  refine ⟨_, _, h, rfl, by simp, ?_⟩
  intro hnf
  simp [hnf]

/-- C16 at the delete-marked `web` over an empty cluster, where the Delete answers not-found. -/
theorem process_delete_marked_witness :
    (withQueue [webDeleteMarked]).wq.queue = webDeleteMarked :: [] ∧
    ¬ (webDeleteMarked.Namespace = "kube-system" ∨
      webDeleteMarked.Namespace = "local-path-storage") ∧
    (webDeleteMarked.Annotations.get serviceKey).1 = "delete" ∧
    ∃ b c, process storeAPI (withQueue [webDeleteMarked]) = .ret (b, c) ∧
      c.apiCalls = (withQueue [webDeleteMarked]).apiCalls ++
        [.delete webDeleteMarked.Namespace webDeleteMarked.Name] ∧
      (b = true ↔ (storeAPI.Delete (withQueue [webDeleteMarked]).client
        webDeleteMarked.Namespace webDeleteMarked.Name).1 = none) ∧
      ((storeAPI.Delete (withQueue [webDeleteMarked]).client
        webDeleteMarked.Namespace webDeleteMarked.Name).1 = some .notFound → b = false) :=
  ⟨rfl, by decide, by decide,
    process_delete_marked storeAPI (withQueue [webDeleteMarked]) webDeleteMarked [] rfl
      (by decide) (by decide)⟩

/-! ## A value that is no number -/

theorem GoMap.get_absent {m : GoMap} {k : String} (h : (GoMap.get m k).2 = false) :
    (GoMap.get m k).1 = "" := by
  unfold GoMap.get at h ⊢
  cases m with
  | none => rfl
  | some l =>
    cases hl : l.lookup k with
    | none => simp [hl]
    | some v => simp [hl] at h

/-- C17: for a dequeued Deployment in a non-excluded namespace whose annotation value is not
delete and is not accepted by `Atoi`, `process` returns false, makes no call on the Service
client and leaves the cluster as it was; an absent annotation and the empty string are such
values. -/
theorem process_unparsable_value {σ : Type} (api : ServiceAPI σ) (cont : Controller σ)
    (item : Deployment) (rest : List Deployment) (hq : cont.wq.queue = item :: rest)
    (hex : ¬ (item.Namespace = "kube-system" ∨ item.Namespace = "local-path-storage"))
    (hdel : (item.Annotations.get serviceKey).1 ≠ "delete")
    (hA : Atoi (item.Annotations.get serviceKey).1 = none) :
    (∃ c, process api cont = .ret (false, c) ∧ c.apiCalls = cont.apiCalls ∧
      c.client = cont.client) ∧
    (∀ d : Deployment, (d.Annotations.get serviceKey).2 = false →
      (d.Annotations.get serviceKey).1 ≠ "delete" ∧
        Atoi (d.Annotations.get serviceKey).1 = none) ∧
    ("" ≠ "delete" ∧ Atoi "" = none) := by
  refine ⟨?_, ?_, by decide, by decide⟩
  · obtain ⟨lg, h⟩ := process_parse_failure api cont item rest hq hex hdel hA
    exact ⟨_, h, rfl, rfl⟩
  · intro d hd
    rw [GoMap.get_absent hd]
    exact ⟨by decide, by decide⟩

/-- C17 at `webNoAnnotations`, which has no annotation map. -/
theorem process_unparsable_value_witness :
    (withQueue [webNoAnnotations]).wq.queue = webNoAnnotations :: [] ∧
    ¬ (webNoAnnotations.Namespace = "kube-system" ∨
      webNoAnnotations.Namespace = "local-path-storage") ∧
    (webNoAnnotations.Annotations.get serviceKey).1 ≠ "delete" ∧
    Atoi (webNoAnnotations.Annotations.get serviceKey).1 = none ∧
    (∃ c, process storeAPI (withQueue [webNoAnnotations]) = .ret (false, c) ∧
      c.apiCalls = (withQueue [webNoAnnotations]).apiCalls ∧
      c.client = (withQueue [webNoAnnotations]).client) ∧
    (∀ d : Deployment, (d.Annotations.get serviceKey).2 = false →
      (d.Annotations.get serviceKey).1 ≠ "delete" ∧
        Atoi (d.Annotations.get serviceKey).1 = none) ∧
    ("" ≠ "delete" ∧ Atoi "" = none) :=
  ⟨rfl, by decide, by decide, by decide,
    process_unparsable_value storeAPI (withQueue [webNoAnnotations]) webNoAnnotations [] rfl
      (by decide) (by decide) (by decide)⟩

/-! ## Create, then Update -/

/-- C18: when the annotation of `d` decodes to an integer, `createService` calls Create once;
it calls Update, with the same Service, exactly when Create returned an already-exists error;
it returns no error exactly when Create succeeded or Create returned already-exists and Update
succeeded; any other Create error and any Update error is the error it returns. -/
theorem createService_create_then_update {σ : Type} (api : ServiceAPI σ) (cont : Controller σ)
    (d : Deployment) (n : Int) (hA : Atoi (d.Annotations.get serviceKey).1 = some n) :
    ∃ e c, createService api cont (some d) = .ret (e, c) ∧
      c.apiCalls = cont.apiCalls ++
        (match (api.Create cont.client d.Namespace (buildService d n)).1 with
          | none => [.create d.Namespace (buildService d n)]
          | some err =>
            if IsAlreadyExists err = true then
              [.create d.Namespace (buildService d n), .update d.Namespace (buildService d n)]
            else [.create d.Namespace (buildService d n)]) ∧
      (e = none ↔
        ((api.Create cont.client d.Namespace (buildService d n)).1 = none ∨
          ∃ err, (api.Create cont.client d.Namespace (buildService d n)).1 = some err ∧
            IsAlreadyExists err = true ∧
            (api.Update (api.Create cont.client d.Namespace (buildService d n)).2 d.Namespace
              (buildService d n)).1 = none)) ∧
      (∀ err, (api.Create cont.client d.Namespace (buildService d n)).1 = some err →
        IsAlreadyExists err = false → e = some (.api err)) ∧
      (∀ err err2, (api.Create cont.client d.Namespace (buildService d n)).1 = some err →
        IsAlreadyExists err = true →
        (api.Update (api.Create cont.client d.Namespace (buildService d n)).2 d.Namespace
          (buildService d n)).1 = some err2 → e = some (.api err2)) := by
  rcases hC : api.Create cont.client d.Namespace (buildService d n) with ⟨e, st⟩
  cases e with
  | none =>
    simp only [createService, checkAnnotation, deref, bind, Outcome.bind, pure, hA, hC]
    exact ⟨_, _, rfl, rfl, by simp, by simp, by simp⟩
  | some e =>
    cases hI : IsAlreadyExists e with
    | false =>
      simp only [createService, checkAnnotation, deref, bind, Outcome.bind, pure, hA, hC, hI]
      refine ⟨_, _, rfl, by simp [Controller.log], by simp [hI], ?_, ?_⟩
      · intro err he _
        cases he
        rfl
      · intro err err2 he hI2
        cases he
        rw [hI] at hI2
        exact Bool.noConfusion hI2
    | true =>
      rcases hU : api.Update st d.Namespace (buildService d n) with ⟨e2, st2⟩
      cases e2 with
      | none =>
        simp only [createService, checkAnnotation, deref, bind, Outcome.bind, pure, hA, hC, hI,
          hU, Controller.log]
        refine ⟨_, _, rfl, by simp [hI], by simp [hI], ?_, ?_⟩
        · intro err he hI2
          cases he
          rw [hI] at hI2
          exact Bool.noConfusion hI2
        · intro err err2 _ _ h2
          exact Option.noConfusion h2
      | some e2 =>
        simp only [createService, checkAnnotation, deref, bind, Outcome.bind, pure, hA, hC, hI,
          hU, Controller.log]
        refine ⟨_, _, rfl, by simp [hI], by simp [hI], ?_, ?_⟩
        · intro err he hI2
          cases he
          rw [hI] at hI2
          exact Bool.noConfusion hI2
        · intro err err2 _ _ h2
          cases h2
          rfl

/-- C18 at `webPort9090` over a cluster that holds the Service of `web`, where Create answers
already-exists. -/
theorem createService_create_then_update_witness :
    Atoi (webPort9090.Annotations.get serviceKey).1 = some 9090 ∧
    ∃ e c, createService storeAPI runningController (some webPort9090) = .ret (e, c) ∧
      c.apiCalls = runningController.apiCalls ++
        (match (storeAPI.Create runningController.client webPort9090.Namespace
            (buildService webPort9090 9090)).1 with
          | none => [.create webPort9090.Namespace (buildService webPort9090 9090)]
          | some err =>
            if IsAlreadyExists err = true then
              [.create webPort9090.Namespace (buildService webPort9090 9090),
               .update webPort9090.Namespace (buildService webPort9090 9090)]
            else [.create webPort9090.Namespace (buildService webPort9090 9090)]) ∧
      (e = none ↔
        ((storeAPI.Create runningController.client webPort9090.Namespace
            (buildService webPort9090 9090)).1 = none ∨
          ∃ err, (storeAPI.Create runningController.client webPort9090.Namespace
              (buildService webPort9090 9090)).1 = some err ∧
            IsAlreadyExists err = true ∧
            (storeAPI.Update (storeAPI.Create runningController.client webPort9090.Namespace
              (buildService webPort9090 9090)).2 webPort9090.Namespace
              (buildService webPort9090 9090)).1 = none)) ∧
      (∀ err, (storeAPI.Create runningController.client webPort9090.Namespace
          (buildService webPort9090 9090)).1 = some err →
        IsAlreadyExists err = false → e = some (.api err)) ∧
      (∀ err err2, (storeAPI.Create runningController.client webPort9090.Namespace
          (buildService webPort9090 9090)).1 = some err →
        IsAlreadyExists err = true →
        (storeAPI.Update (storeAPI.Create runningController.client webPort9090.Namespace
          (buildService webPort9090 9090)).2 webPort9090.Namespace
          (buildService webPort9090 9090)).1 = some err2 → e = some (.api err2)) :=
  ⟨by decide,
    createService_create_then_update storeAPI runningController webPort9090 9090 (by decide)⟩

/-! ## The copy that the Delete notification enqueues -/

theorem lookup_filter_ne (l : List (String × String)) (k k2 : String) (h : k ≠ k2) :
    (l.filter (fun e => decide (e.1 ≠ k2))).lookup k = l.lookup k := by
  induction l with
  | nil => rfl
  | cons e l ih =>
    obtain ⟨a, b⟩ := e
    by_cases hak : a = k2
    · subst hak
      have hka : (k == a) = false := by simpa using h
      simpa [List.filter, List.lookup, hka] using ih
    · by_cases hk : k = a
      · subst hk
        simp [List.filter, List.lookup, hak]
      · have hka : (k == a) = false := by simpa using hk
        simpa [List.filter, List.lookup, hak, hka] using ih

theorem WorkQueue.Add_calls (q : WorkQueue) (item : Deployment) :
    (q.Add item).calls = q.calls ++ [.add item] := by
  unfold WorkQueue.Add
  simp only
  split_ifs <;> rfl

/-- C19: for a Delete notification on a Deployment `d` that carries the annotation, held at
address `a`, `handleDelete` makes one `Add` call on the queue; the item has the annotation value
delete, every other annotation of `d` and the other fields of `d`; the copy is a new object, and
the object at `a`, like every object that was in the heap, is as it was. -/
theorem handleDelete_enqueues_marked_copy {σ : Type} (cont : Controller σ) (heap : Heap)
    (a : Nat) (d : Deployment) (ha : heap[a]? = some d)
    (h : (d.Annotations.get serviceKey).2 = true) :
    ∃ item heap2,
      handleDelete cont (.deployment d) = .ret { cont with wq := cont.wq.Add item } ∧
      handleDeleteAt cont heap (some a) = .ret ({ cont with wq := cont.wq.Add item }, heap2) ∧
      (cont.wq.Add item).calls = cont.wq.calls ++ [.add item] ∧
      item.Annotations.get serviceKey = ("delete", true) ∧
      (∀ k, k ≠ serviceKey → item.Annotations.get k = d.Annotations.get k) ∧
      item.Name = d.Name ∧ item.Namespace = d.Namespace ∧
      item.ResourceVersion = d.ResourceVersion ∧
      item.CreationTimestamp = d.CreationTimestamp ∧
      item.Labels = d.Labels ∧ item.TemplateLabels = d.TemplateLabels ∧
      heap2[a]? = some d ∧ ∀ b, b < heap.length → heap2[b]? = heap[b]? := by
  obtain ⟨l, hl⟩ := GoMap.some_of_get h
  have halt : a < heap.length := by
    by_contra hge
    rw [List.getElem?_eq_none (by omega)] at ha
    exact Option.noConfusion ha
  rw [hl] at h
  refine ⟨{ d with
      Annotations := some ((serviceKey, "delete") :: l.filter (fun e => decide (e.1 ≠ serviceKey))) },
    heap ++ [{ d with
      Annotations := some ((serviceKey, "delete") :: l.filter (fun e => decide (e.1 ≠ serviceKey))) }],
    ?_, ?_, WorkQueue.Add_calls _ _, GoMap.get_cons_self _ _ _, ?_, rfl, rfl, rfl, rfl, rfl, rfl,
    ?_, ?_⟩
  · simp [handleDelete, Obj.asDeployment, checkAnnotation, deref, bind, Outcome.bind, pure, h, hl,
      GoMap.set, Deployment.DeepCopy]
  · simp [handleDeleteAt, Heap.read, Heap.DeepCopy, Heap.assignAnnotation, bind, Outcome.bind,
      pure, ha, h, hl, GoMap.set, Deployment.DeepCopy, List.set_append]
  · intro k hk
    have hks : (k == serviceKey) = false := by simpa using hk
    simp only [GoMap.get, hl, List.lookup, hks]
    rw [lookup_filter_ne l k serviceKey hk]
  · rw [List.getElem?_append_left halt]
    exact ha
  · intro b hb
    exact List.getElem?_append_left hb

/-- C19 at `webRelabelled`, held at address 1 of a heap of two objects. -/
theorem handleDelete_enqueues_marked_copy_witness :
    ([apiDeployment, webRelabelled] : Heap)[1]? = some webRelabelled ∧
    (webRelabelled.Annotations.get serviceKey).2 = true ∧
    ∃ item heap2,
      handleDelete startController (.deployment webRelabelled)
        = .ret { startController with wq := startController.wq.Add item } ∧
      handleDeleteAt startController [apiDeployment, webRelabelled] (some 1)
        = .ret ({ startController with wq := startController.wq.Add item }, heap2) ∧
      (startController.wq.Add item).calls = startController.wq.calls ++ [.add item] ∧
      item.Annotations.get serviceKey = ("delete", true) ∧
      (∀ k, k ≠ serviceKey → item.Annotations.get k = webRelabelled.Annotations.get k) ∧
      item.Name = webRelabelled.Name ∧ item.Namespace = webRelabelled.Namespace ∧
      item.ResourceVersion = webRelabelled.ResourceVersion ∧
      item.CreationTimestamp = webRelabelled.CreationTimestamp ∧
      item.Labels = webRelabelled.Labels ∧ item.TemplateLabels = webRelabelled.TemplateLabels ∧
      heap2[1]? = some webRelabelled ∧
      ∀ b, b < ([apiDeployment, webRelabelled] : Heap).length →
        heap2[b]? = ([apiDeployment, webRelabelled] : Heap)[b]? :=
  ⟨rfl, by decide,
    handleDelete_enqueues_marked_copy startController [apiDeployment, webRelabelled] 1
      webRelabelled rfl (by decide)⟩

end ServiceCreator
